import Mathlib

/-!
Verification of the reservation scheduling engine of `src/app.py`
(Small Cafe Table Reservation System, single-file Streamlit app).

Modelling conventions for the shallow embedding:

* A calendar date string `"YYYY-MM-DD"` is modelled by a day index `Nat`
  and a time-of-day string `"HH:MM"` by its minutes after midnight, so
  `parse_datetime` returns the absolute minute count `1440 * day + minutes`.
  Chronological comparison and the `timedelta` arithmetic of the Python
  `datetime` values coincide with `Nat` comparison and addition on this
  representation (valid input strings assumed, as `datetime.strptime`
  raises on malformed ones).
* The SQLite rows are modelled as Lean structures; the reservation table
  is a `List Reservation` in rowid (insertion) order, which is the order a
  plain `SELECT` returns.  A SQL `NULL` table id is `none`; Python
  truthiness of the `table_id` field (`None` and `""` are falsy) is the
  `truthy` predicate below.
* `status` is kept as a `String`, exactly as stored, because the code
  compares it literally against `"cancelled"` / `"confirmed"`.
-/

structure CafeTable where
  table_id : String
  name : String
  capacity : Nat
deriving Repr, DecidableEq

structure Reservation where
  reservation_id : String
  customer_name : String
  contact : String
  rdate : Nat
  rtime : Nat
  party_size : Nat
  table_id : Option String
  status : String
  created_at : Nat
deriving Repr, DecidableEq

/-- `RESERVATION_DURATION_MINUTES = 90` from `app.py` line 149. -/
def RESERVATION_DURATION_MINUTES : Nat := 90

/-- `parse_datetime(date_str, time_str)`: absolute minutes of the datetime. -/
def parse_datetime (date time : Nat) : Nat := 1440 * date + time

/-- `time_conflicts(resv_dt, existing_dt)` from `app.py` lines 154-157. -/
def time_conflicts (resv_dt existing_dt : Nat) : Bool :=
  !(decide (resv_dt + RESERVATION_DURATION_MINUTES ≤ existing_dt)
    || decide (existing_dt + RESERVATION_DURATION_MINUTES ≤ resv_dt))

/-- Python truthiness of the stored `table_id` field: SQL `NULL` (`none`)
and the empty string are falsy. -/
def truthy : Option String → Bool
  | none => false
  | some s => s ≠ ""

/-- The `busy_table_ids` set built by `available_tables_for_slot`
(`app.py` lines 164-170): table ids of non-cancelled reservations whose
window conflicts with the requested datetime and whose `table_id` is truthy.
The Python code accumulates a `set`, of which only membership is consumed
(`isin`); we model it as the list of qualifying ids in iteration order. -/
def busy_table_ids (reservations : List Reservation) (requested_dt : Nat) :
    List String :=
  match reservations with
  | [] => []
  | r :: rest =>
    if r.status = "cancelled" then busy_table_ids rest requested_dt
    else if time_conflicts requested_dt (parse_datetime r.rdate r.rtime)
            && truthy r.table_id then
      r.table_id.getD "" :: busy_table_ids rest requested_dt
    else busy_table_ids rest requested_dt

/-- `available_tables_for_slot(date_str, time_str, party_size)` from
`app.py` lines 159-173, with the two store reads (`fetch_tables`,
`fetch_reservations_on date_str`) passed as explicit arguments.  Keeps the
order of `all_tables` (pandas boolean-mask filtering preserves row order). -/
def available_tables_for_slot (all_tables : List CafeTable)
    (reservations : List Reservation) (date time party_size : Nat) :
    List CafeTable :=
  let requested_dt := parse_datetime date time
  let resvs_on_date := reservations.filter (fun r => r.rdate = date)
  let busy := busy_table_ids resvs_on_date requested_dt
  all_tables.filter
    (fun t => decide (party_size ≤ t.capacity) && !(busy.contains t.table_id))

/-- Code-point lexicographic comparison on character lists: how Python
(and hence pandas `sort_values` on an object column of `str`) orders the
`table_id` strings. -/
def charListLe : List Char → List Char → Bool
  | [], _ => true
  | _ :: _, [] => false
  | a :: as, b :: bs =>
    if a.toNat < b.toNat then true
    else if a.toNat = b.toNat then charListLe as bs
    else false

/-- Python `str` ordering of two strings (code-point lexicographic). -/
def str_le (a b : String) : Bool := charListLe a.data b.data

/-- The pandas `sort_values(["waste", "capacity", "table_id"])` key of
`ai_assign_table`: ascending waste (`capacity - party_size` over `Int`,
as pandas computes it), then ascending capacity, then ascending table id. -/
def table_le (party_size : Nat) (a b : CafeTable) : Prop :=
  ((a.capacity : Int) - party_size < (b.capacity : Int) - party_size) ∨
  ((a.capacity : Int) - party_size = (b.capacity : Int) - party_size ∧
    (a.capacity < b.capacity ∨
      (a.capacity = b.capacity ∧ str_le a.table_id b.table_id = true)))

instance (party_size : Nat) : DecidableRel (table_le party_size) := by
  unfold table_le
  infer_instance

/-- `ai_assign_table(date_str, time_str, party_size)` from `app.py`
lines 175-190: sort the candidate tables by (waste, capacity, table_id)
with a stable sort and return the first row's `table_id`, or `None`
when the candidate set is empty. -/
def ai_assign_table (all_tables : List CafeTable)
    (reservations : List Reservation) (date time party_size : Nat) :
    Option String :=
  let candidates :=
    available_tables_for_slot all_tables reservations date time party_size
  match candidates.insertionSort (table_le party_size) with
  | [] => none
  | chosen :: _ => some chosen.table_id

/-- The persistent store: the `cafe_tables` and `reservations` SQLite
tables, each as a list of rows in rowid (insertion) order. -/
structure DB where
  tables : List CafeTable
  reservations : List Reservation
deriving Repr, DecidableEq

/-- `fetch_reservations_on(date_str)` from `app.py` lines 80-90 (no
`time_str` argument is ever passed with one in the scheduling paths we
model): `SELECT * FROM reservations WHERE date=?`, rows in stored order. -/
def fetch_reservations_on (db : DB) (date : Nat) : List Reservation :=
  db.reservations.filter (fun r => r.rdate = date)

/-- `insert_reservation(resv)` from `app.py` lines 92-110: appends a row. -/
def insert_reservation (db : DB) (resv : Reservation) : DB :=
  { db with reservations := db.reservations ++ [resv] }

/-- `assign_table_to_reservation(reservation_id, table_id)` from `app.py`
lines 119-124: `UPDATE reservations SET table_id=?, status='confirmed'
WHERE reservation_id=?`. -/
def assign_table_to_reservation (db : DB) (reservation_id table_id : String) :
    DB :=
  { db with
    reservations := db.reservations.map (fun r =>
      if r.reservation_id = reservation_id then
        { r with table_id := some table_id, status := "confirmed" }
      else r) }

/-- `delete_reservation(reservation_id)` from `app.py` lines 126-131:
`UPDATE reservations SET status='cancelled' WHERE reservation_id=?`. -/
def delete_reservation (db : DB) (reservation_id : String) : DB :=
  { db with
    reservations := db.reservations.map (fun r =>
      if r.reservation_id = reservation_id then
        { r with status := "cancelled" }
      else r) }

/-- The customer booking submission (`app.py` lines 225-276): with name and
contact present, compute the candidates; if empty, only warn and suggest
alternative times (no store write); otherwise run `ai_assign_table` and
insert a reservation whose status is `"confirmed"` when a table was
suggested, else `"pending"`.  Returns the reservation row inserted, if any
(`reservation_id` and `created_at`, produced by `uuid4` and `utcnow` in the
code, are passed in). -/
def booking_submit (db : DB) (name contact : String)
    (date time party_size : Nat) (rid : String) (now : Nat) :
    Option Reservation :=
  if name = "" ∨ contact = "" then none
  else
    let candidates :=
      available_tables_for_slot db.tables db.reservations date time party_size
    if candidates.isEmpty then none
    else
      let suggested := ai_assign_table db.tables db.reservations date time party_size
      some
        { reservation_id := rid
          customer_name := name
          contact := contact
          rdate := date
          rtime := time
          party_size := party_size
          table_id := suggested
          status := if truthy suggested then "confirmed" else "pending"
          created_at := now }

/-- The admin "Manual assign table" handler (`app.py` lines 376-386): look
the reservation up in the fetched frame; if absent report an error,
otherwise call `assign_table_to_reservation` directly — with no capacity or
conflict validation. -/
def manual_assign (db : DB) (sel_id manual_table : String) :
    Except String DB :=
  if (db.reservations.filter (fun r => r.reservation_id = sel_id)).isEmpty then
    .error "Reservation not found."
  else
    .ok (assign_table_to_reservation db sel_id manual_table)

/-- The snapshot-row eligibility test of the batch-assign loop (`app.py`
line 400): `r["status"] != "cancelled" and (not r["table_id"] or
r["status"] != "confirmed")`. -/
def batch_eligible (r : Reservation) : Bool :=
  r.status ≠ "cancelled" && (!(truthy r.table_id) || r.status ≠ "confirmed")

/-- One iteration of the batch-assign loop body (`app.py` lines 400-405),
acting on the running store and `assigned_count` for snapshot row `r`. -/
def batch_step (acc : DB × Nat) (r : Reservation) : DB × Nat :=
  if batch_eligible r then
    match ai_assign_table acc.1.tables acc.1.reservations
        r.rdate r.rtime r.party_size with
    | some asg => (assign_table_to_reservation acc.1 r.reservation_id asg,
                   acc.2 + 1)
    | none => acc
  else acc

/-- The admin "Run batch assign" handler (`app.py` lines 392-407): snapshot
the date's reservations, then for each eligible row call `ai_assign_table`
against the *current* store (earlier assignments in the same batch are
visible) and, when a table comes back, `assign_table_to_reservation` it and
count it.  Returns the final store and `assigned_count`. -/
def batch_assign (db : DB) (date : Nat) : DB × Nat :=
  (fetch_reservations_on db date).foldl batch_step (db, 0)

/-- A reservation that is `"confirmed"` and holds a (truthy) table — what a
successful batch iteration produces.  Used to state that `batch_assign`'s
return value counts newly confirmed-and-seated reservations. -/
def confirmedAssigned (r : Reservation) : Bool :=
  r.status = "confirmed" && truthy r.table_id

/-- The availability filter as §4.2 of the spec words it, for comparison
with `available_tables_for_slot`: the subset of tables where
`capacity ≥ party_size` and the table's identifier is not held by any
non-cancelled same-date reservation whose window conflicts with the target
window. -/
def spec_available (all_tables : List CafeTable)
    (reservations : List Reservation) (date time party_size : Nat) :
    List CafeTable :=
  all_tables.filter (fun t =>
    decide (party_size ≤ t.capacity) &&
    !(reservations.any (fun r =>
        r.rdate = date && r.status ≠ "cancelled" &&
        r.table_id = some t.table_id &&
        time_conflicts (parse_datetime date time)
          (parse_datetime r.rdate r.rtime))))

/-! Concrete sample data, used by witness and counterexample theorems.
`tbl_T1`/`tbl_T2`/`tbl_T3` are the first three seeded tables of `init_db`;
times are minutes after midnight (600 = 10:00, 720 = 12:00). -/

def tbl_T1 : CafeTable := { table_id := "T1", name := "Window 2-seater", capacity := 2 }

def tbl_T2 : CafeTable := { table_id := "T2", name := "Corner 2-seater", capacity := 2 }

def tbl_T3 : CafeTable := { table_id := "T3", name := "Center 4-seater", capacity := 4 }

def tbl_T5 : CafeTable := { table_id := "T5", name := "Community 6-seater", capacity := 6 }

/-- A confirmed reservation holding `T1` at day 5, 10:00, party 2. -/
def resv_R1 : Reservation :=
  { reservation_id := "R1", customer_name := "Ann", contact := "ann@example.com"
    rdate := 5, rtime := 600, party_size := 2
    table_id := some "T1", status := "confirmed", created_at := 0 }

/-- A pending unassigned reservation at day 5, 10:00, party 5. -/
def resv_big : Reservation :=
  { reservation_id := "R2", customer_name := "Bea", contact := "bea@example.com"
    rdate := 5, rtime := 600, party_size := 5
    table_id := none, status := "pending", created_at := 1 }

/-- Three pending unassigned party-2 reservations at day 5, 10:00, with
ascending creation timestamps (Scenario D). -/
def resv_P1 : Reservation :=
  { reservation_id := "P1", customer_name := "Cal", contact := "cal@example.com"
    rdate := 5, rtime := 600, party_size := 2
    table_id := none, status := "pending", created_at := 10 }

def resv_P2 : Reservation :=
  { reservation_id := "P2", customer_name := "Dee", contact := "dee@example.com"
    rdate := 5, rtime := 600, party_size := 2
    table_id := none, status := "pending", created_at := 11 }

def resv_P3 : Reservation :=
  { reservation_id := "P3", customer_name := "Eli", contact := "eli@example.com"
    rdate := 5, rtime := 600, party_size := 2
    table_id := none, status := "pending", created_at := 12 }

/-- The Scenario D store: one 4-seater and three pending party-2
reservations at day 5, 10:00, created in order P1, P2, P3. -/
def scenarioD_db : DB :=
  { tables := [tbl_T3], reservations := [resv_P1, resv_P2, resv_P3] }

/-! ## Helper lemmas -/

theorem mem_busy_table_ids {resvs : List Reservation} {dt : Nat} {s : String} :
    s ∈ busy_table_ids resvs dt ↔
      ∃ r ∈ resvs, r.status ≠ "cancelled" ∧
        time_conflicts dt (parse_datetime r.rdate r.rtime) = true ∧
        r.table_id = some s ∧ s ≠ "" := by
  induction resvs with
  | nil => simp [busy_table_ids]
  | cons r rest ih =>
    by_cases hc : r.status = "cancelled"
    · simp only [busy_table_ids, if_pos hc, ih, List.mem_cons]
      constructor
      · rintro ⟨x, hx, h⟩
        exact ⟨x, Or.inr hx, h⟩
      · rintro ⟨x, hx | hx, h⟩
        · exact absurd hc (hx ▸ h.1)
        · exact ⟨x, hx, h⟩
    · by_cases hb :
        (time_conflicts dt (parse_datetime r.rdate r.rtime)
          && truthy r.table_id) = true
      · have heq : busy_table_ids (r :: rest) dt =
            r.table_id.getD "" :: busy_table_ids rest dt := by
          simp only [busy_table_ids, if_neg hc, if_pos hb]
        rw [Bool.and_eq_true] at hb
        obtain ⟨htc, htr⟩ := hb
        match hrt : r.table_id with
        | none => simp [truthy, hrt] at htr
        | some s0 =>
          have hs0 : s0 ≠ "" := by
            simpa [truthy, hrt] using htr
          rw [hrt] at heq
          simp only [Option.getD_some] at heq
          rw [heq]
          simp only [List.mem_cons, ih]
          constructor
          · rintro (rfl | ⟨x, hx, h⟩)
            · exact ⟨r, Or.inl rfl, hc, htc, hrt, hs0⟩
            · exact ⟨x, Or.inr hx, h⟩
          · rintro ⟨x, hx | hx, h⟩
            · subst hx
              rw [hrt] at h
              exact Or.inl (Option.some_injective _ h.2.2.1).symm
            · exact Or.inr ⟨x, hx, h⟩
      · have heq : busy_table_ids (r :: rest) dt = busy_table_ids rest dt := by
          simp only [busy_table_ids, if_neg hc]
          rw [if_neg hb]
        rw [heq, ih]
        simp only [List.mem_cons]
        constructor
        · rintro ⟨x, hx, h⟩
          exact ⟨x, Or.inr hx, h⟩
        · rintro ⟨x, hx | hx, h⟩
          · subst hx
            refine absurd ?_ hb
            rw [Bool.and_eq_true]
            refine ⟨h.2.1, ?_⟩
            simp [truthy, h.2.2.1, h.2.2.2]
          · exact ⟨x, hx, h⟩

theorem mem_available_tables {tables : List CafeTable}
    {resvs : List Reservation} {date time party_size : Nat} {t : CafeTable} :
    t ∈ available_tables_for_slot tables resvs date time party_size ↔
      t ∈ tables ∧ party_size ≤ t.capacity ∧
        t.table_id ∉
          busy_table_ids (resvs.filter (fun r => r.rdate = date))
            (parse_datetime date time) := by
  simp [available_tables_for_slot, List.mem_filter, and_assoc]

theorem busy_table_ids_middle_skip {r : Reservation} {dt : Nat}
    (hskip : r.status = "cancelled" ∨
      (time_conflicts dt (parse_datetime r.rdate r.rtime)
        && truthy r.table_id) ≠ true) :
    ∀ a b : List Reservation,
      busy_table_ids (a ++ r :: b) dt = busy_table_ids (a ++ b) dt := by
  intro a b
  induction a with
  | nil =>
    simp only [List.nil_append, busy_table_ids]
    rcases hskip with h | h
    · rw [if_pos h]
    · by_cases hc : r.status = "cancelled"
      · rw [if_pos hc]
      · rw [if_neg hc, if_neg h]
  | cons x xs ih =>
    simp only [List.cons_append, busy_table_ids, List.append_eq]
    rw [ih]

/-! ## Claim theorems -/

/-- C2: `time_conflicts` reports a conflict between two same-date starts
`a` and `b` iff `NOT (a + D ≤ b OR b + D ≤ a)` where
`D = RESERVATION_DURATION_MINUTES = 90`; in particular a reservation
occupying 10:00 (600 minutes) conflicts with a new 10:00 request on the
same date but not with a 12:00 (720 minutes) one. -/
theorem time_conflicts_iff_not_disjoint :
    (∀ a b : Nat, time_conflicts a b = true ↔
        ¬(a + RESERVATION_DURATION_MINUTES ≤ b ∨
          b + RESERVATION_DURATION_MINUTES ≤ a)) ∧
    RESERVATION_DURATION_MINUTES = 90 ∧
    time_conflicts (parse_datetime 5 600) (parse_datetime 5 600) = true ∧
    time_conflicts (parse_datetime 5 720) (parse_datetime 5 600) = false := by
  refine ⟨fun a b => ?_, rfl, by decide, by decide⟩
  simp [time_conflicts, not_or]

/-- C2 witness: a concrete conflict instance obtained from the theorem,
10:30 against 10:00 on day 0. -/
theorem time_conflicts_iff_not_disjoint_witness :
    time_conflicts 630 600 = true :=
  (time_conflicts_iff_not_disjoint.1 630 600).mpr (by decide)

/-- C8: a window always overlaps itself (`time_conflicts dt dt = true`,
the duration being positive), hence a table held by a non-cancelled
assigned reservation at exactly the requested date and start time is never
in the output of `available_tables_for_slot`. -/
theorem time_conflicts_self_and_exclusion :
    (∀ dt : Nat, time_conflicts dt dt = true) ∧
    (∀ (tables : List CafeTable) (resvs : List Reservation)
        (date time party_size : Nat) (r : Reservation),
      r ∈ resvs → r.status ≠ "cancelled" → r.rdate = date → r.rtime = time →
      truthy r.table_id = true →
      ∀ t ∈ available_tables_for_slot tables resvs date time party_size,
        some t.table_id ≠ r.table_id) := by
  have hrefl : ∀ dt : Nat, time_conflicts dt dt = true := by
    intro dt
    have h : ¬ (dt + RESERVATION_DURATION_MINUTES ≤ dt) := by
      unfold RESERVATION_DURATION_MINUTES
      omega
    simp [time_conflicts, h]
  refine ⟨hrefl, ?_⟩
  intro tables resvs date time party_size r hmem hstat hdate htime htruthy
    t ht heq
  rw [mem_available_tables] at ht
  obtain ⟨-, -, hbusy⟩ := ht
  apply hbusy
  rw [mem_busy_table_ids]
  have hrtid : r.table_id = some t.table_id := heq.symm
  have htid_ne : t.table_id ≠ "" := by
    rw [hrtid] at htruthy
    simpa [truthy] using htruthy
  refine ⟨r, List.mem_filter.mpr ⟨hmem, by simp [hdate]⟩, hstat, ?_, hrtid,
    htid_ne⟩
  rw [hdate, htime]
  exact hrefl _

/-- C8 witness: the concrete seeded-table instance — `T1` is held by a
confirmed reservation at day 5, 10:00, so it is excluded from the filter's
output for that very slot. -/
theorem time_conflicts_self_and_exclusion_witness :
    (available_tables_for_slot [tbl_T1, tbl_T2, tbl_T3] [resv_R1]
        5 600 2).all
      (fun t => some t.table_id ≠ resv_R1.table_id) = true := by
  rw [List.all_eq_true]
  intro t ht
  simpa using
    time_conflicts_self_and_exclusion.2 [tbl_T1, tbl_T2, tbl_T3] [resv_R1]
      5 600 2 resv_R1 (by decide) (by decide) rfl rfl (by decide) t ht

/-- C7: a cancelled reservation is exempt from availability computation —
removing it from the reservation set (at any position) leaves the output of
`available_tables_for_slot` unchanged, so the slot it held is free to be
re-requested. -/
theorem cancelled_exempt_from_availability (tables : List CafeTable)
    (l1 l2 : List Reservation) (r : Reservation)
    (date time party_size : Nat) (h : r.status = "cancelled") :
    available_tables_for_slot tables (l1 ++ r :: l2) date time party_size =
      available_tables_for_slot tables (l1 ++ l2) date time party_size := by
  simp only [available_tables_for_slot]
  by_cases hd : r.rdate = date
  · have hf : (l1 ++ r :: l2).filter (fun x => decide (x.rdate = date)) =
        l1.filter (fun x => decide (x.rdate = date)) ++
          r :: l2.filter (fun x => decide (x.rdate = date)) := by
      simp [List.filter_append, List.filter_cons, hd]
    have hf2 : (l1 ++ l2).filter (fun x => decide (x.rdate = date)) =
        l1.filter (fun x => decide (x.rdate = date)) ++
          l2.filter (fun x => decide (x.rdate = date)) := by
      simp [List.filter_append]
    rw [hf, hf2, busy_table_ids_middle_skip (Or.inl h)]
  · have hf : (l1 ++ r :: l2).filter (fun x => decide (x.rdate = date)) =
        (l1 ++ l2).filter (fun x => decide (x.rdate = date)) := by
      simp [List.filter_append, List.filter_cons, hd]
    rw [hf]

/-- C7 witness: cancelling the reservation holding `T1` at day 5, 10:00
makes the filter's output for that slot identical to the output with the
reservation absent. -/
theorem cancelled_exempt_from_availability_witness :
    available_tables_for_slot [tbl_T1, tbl_T2, tbl_T3]
        ([] ++ { resv_R1 with status := "cancelled" } :: []) 5 600 2 =
      available_tables_for_slot [tbl_T1, tbl_T2, tbl_T3] ([] ++ []) 5 600 2 :=
  cancelled_exempt_from_availability [tbl_T1, tbl_T2, tbl_T3] [] []
    { resv_R1 with status := "cancelled" } 5 600 2 rfl

/-- C9: a non-cancelled reservation whose `table_id` is SQL `NULL` or the
empty string contributes no table to the busy set — inserting such an
unassigned reservation anywhere in the input leaves the output of
`available_tables_for_slot` unchanged. -/
theorem unassigned_never_busies (tables : List CafeTable)
    (l1 l2 : List Reservation) (r : Reservation)
    (date time party_size : Nat) (hstat : r.status ≠ "cancelled")
    (h : truthy r.table_id = false) :
    available_tables_for_slot tables (l1 ++ r :: l2) date time party_size =
      available_tables_for_slot tables (l1 ++ l2) date time party_size := by
  simp only [available_tables_for_slot]
  by_cases hd : r.rdate = date
  · have hf : (l1 ++ r :: l2).filter (fun x => decide (x.rdate = date)) =
        l1.filter (fun x => decide (x.rdate = date)) ++
          r :: l2.filter (fun x => decide (x.rdate = date)) := by
      simp [List.filter_append, List.filter_cons, hd]
    have hf2 : (l1 ++ l2).filter (fun x => decide (x.rdate = date)) =
        l1.filter (fun x => decide (x.rdate = date)) ++
          l2.filter (fun x => decide (x.rdate = date)) := by
      simp [List.filter_append]
    rw [hf, hf2, busy_table_ids_middle_skip (Or.inr (by simp [h]))]
  · have hf : (l1 ++ r :: l2).filter (fun x => decide (x.rdate = date)) =
        (l1 ++ l2).filter (fun x => decide (x.rdate = date)) := by
      simp [List.filter_append, List.filter_cons, hd]
    rw [hf]

/-- C9 witness: adding the pending unassigned reservation `resv_P1` to the
slot's reservation set leaves the filter's output unchanged. -/
theorem unassigned_never_busies_witness :
    available_tables_for_slot [tbl_T1, tbl_T2, tbl_T3]
        ([resv_R1] ++ resv_P1 :: []) 5 600 2 =
      available_tables_for_slot [tbl_T1, tbl_T2, tbl_T3]
        ([resv_R1] ++ []) 5 600 2 :=
  unassigned_never_busies [tbl_T1, tbl_T2, tbl_T3] [resv_R1] [] resv_P1
    5 600 2 (by decide) rfl

/-- C10: `delete_reservation` (cancellation) only updates the status field
of the id-matching reservation to `"cancelled"`: the table set is
untouched, no reservation row is removed, every other field of the matched
row is unchanged, and rows with other ids are unchanged entirely. -/
theorem delete_reservation_frame (db : DB) (rid : String) :
    (delete_reservation db rid).tables = db.tables ∧
    (delete_reservation db rid).reservations.length =
      db.reservations.length ∧
    ∀ (i : Nat) (r r' : Reservation),
      db.reservations[i]? = some r →
      (delete_reservation db rid).reservations[i]? = some r' →
      (r.reservation_id = rid →
        r'.reservation_id = r.reservation_id ∧
        r'.customer_name = r.customer_name ∧
        r'.contact = r.contact ∧
        r'.rdate = r.rdate ∧
        r'.rtime = r.rtime ∧
        r'.party_size = r.party_size ∧
        r'.table_id = r.table_id ∧
        r'.created_at = r.created_at ∧
        r'.status = "cancelled") ∧
      (r.reservation_id ≠ rid → r' = r) := by
  refine ⟨rfl, by simp [delete_reservation], ?_⟩
  intro i r r' h1 h2
  simp only [delete_reservation, List.getElem?_map, h1, Option.map_some'] at h2
  have h2' : (if r.reservation_id = rid then
      { r with status := "cancelled" } else r) = r' :=
    Option.some_injective _ h2
  constructor
  · intro hid
    rw [if_pos hid] at h2'
    subst h2'
    exact ⟨rfl, rfl, rfl, rfl, rfl, rfl, rfl, rfl, rfl⟩
  · intro hid
    rw [if_neg hid] at h2'
    exact h2'.symm

/-- C10 witness: cancelling `"R1"` in a two-row store keeps both rows, the
second row untouched, and only flips the first row's status. -/
theorem delete_reservation_frame_witness :
    (delete_reservation { tables := [], reservations := [resv_R1, resv_big] }
        "R1").reservations.length = 2 ∧
    (delete_reservation { tables := [], reservations := [resv_R1, resv_big] }
        "R1").reservations[1]? = some resv_big ∧
    (delete_reservation { tables := [], reservations := [resv_R1, resv_big] }
        "R1").reservations[0]?.map Reservation.status = some "cancelled" := by
  obtain ⟨-, h2, h3⟩ :=
    delete_reservation_frame
      { tables := [], reservations := [resv_R1, resv_big] } "R1"
  refine ⟨h2, ?_, by decide⟩
  have hr2 := (h3 1 resv_big resv_big rfl (by decide)).2 (by decide)
  decide

/-- C1: for every table set (with the primary-key invariant that ids are
non-empty strings), reservation set, requested date/start time and party
size, `available_tables_for_slot` returns exactly the tables with
`capacity ≥ party_size` whose identifier is not held by any non-cancelled
same-date reservation whose window conflicts with the requested one
(the spec-side filter `spec_available`). -/
theorem available_tables_matches_spec (tables : List CafeTable)
    (resvs : List Reservation) (date time party_size : Nat)
    (htid : ∀ t ∈ tables, t.table_id ≠ "") :
    available_tables_for_slot tables resvs date time party_size =
      spec_available tables resvs date time party_size := by
  simp only [available_tables_for_slot, spec_available]
  apply List.filter_congr
  intro t ht
  have hne : t.table_id ≠ "" := htid t ht
  congr 1
  congr 1
  rw [Bool.eq_iff_iff]
  constructor
  · intro h
    have hmem : t.table_id ∈
        busy_table_ids (resvs.filter fun r => decide (r.rdate = date))
          (parse_datetime date time) := by
      simpa using h
    rw [mem_busy_table_ids] at hmem
    obtain ⟨r, hr, hstat, htc, hrtid, -⟩ := hmem
    rw [List.mem_filter] at hr
    rw [List.any_eq_true]
    refine ⟨r, hr.1, ?_⟩
    simp only [Bool.and_eq_true, decide_eq_true_eq]
    exact ⟨⟨⟨by simpa using hr.2, hstat⟩, by simpa using hrtid⟩, htc⟩
  · intro h
    rw [List.any_eq_true] at h
    obtain ⟨r, hr, hcond⟩ := h
    simp only [Bool.and_eq_true, decide_eq_true_eq] at hcond
    obtain ⟨⟨⟨hdate, hstat⟩, hrtid⟩, htc⟩ := hcond
    have hmem : t.table_id ∈
        busy_table_ids (resvs.filter fun r => decide (r.rdate = date))
          (parse_datetime date time) := by
      rw [mem_busy_table_ids]
      exact ⟨r, List.mem_filter.mpr ⟨hr, by simpa using hdate⟩, hstat, htc,
        by simpa using hrtid, hne⟩
    simpa using hmem

/-- C1 witness: Scenario B at day 5 — `T1` held at 10:00 excludes `T1`
from the 10:00 filter output, and the code filter agrees with the
spec-side filter on the seeded tables. -/
theorem available_tables_matches_spec_witness :
    available_tables_for_slot [tbl_T1, tbl_T2, tbl_T3] [resv_R1] 5 600 2 =
      spec_available [tbl_T1, tbl_T2, tbl_T3] [resv_R1] 5 600 2 :=
  available_tables_matches_spec [tbl_T1, tbl_T2, tbl_T3] [resv_R1] 5 600 2
    (by decide)

theorem charListLe_cons_iff (x y : Char) (xs ys : List Char) :
    charListLe (x :: xs) (y :: ys) = true ↔
      (x.toNat < y.toNat ∨
        (x.toNat = y.toNat ∧ charListLe xs ys = true)) := by
  by_cases h1 : x.toNat < y.toNat
  · simp [charListLe, h1]
  · by_cases h2 : x.toNat = y.toNat
    · simp [charListLe, h1, h2]
    · simp [charListLe, h1, h2]

theorem charListLe_refl (l : List Char) : charListLe l l = true := by
  induction l with
  | nil => rfl
  | cons a as ih => simp [charListLe, ih]

theorem charListLe_total : ∀ a b : List Char,
    charListLe a b = true ∨ charListLe b a = true := by
  intro a
  induction a with
  | nil => intro b; exact Or.inl rfl
  | cons x xs ih =>
    intro b
    cases b with
    | nil => exact Or.inr rfl
    | cons y ys =>
      rcases Nat.lt_trichotomy x.toNat y.toNat with h | h | h
      · exact Or.inl ((charListLe_cons_iff x y xs ys).mpr (Or.inl h))
      · rcases ih ys with hc | hc
        · exact Or.inl ((charListLe_cons_iff x y xs ys).mpr
            (Or.inr ⟨h, hc⟩))
        · exact Or.inr ((charListLe_cons_iff y x ys xs).mpr
            (Or.inr ⟨h.symm, hc⟩))
      · exact Or.inr ((charListLe_cons_iff y x ys xs).mpr (Or.inl h))

theorem charListLe_trans : ∀ a b c : List Char,
    charListLe a b = true → charListLe b c = true →
    charListLe a c = true := by
  intro a
  induction a with
  | nil => intro b c _ _; rfl
  | cons x xs ih =>
    intro b c hab hbc
    cases b with
    | nil => simp [charListLe] at hab
    | cons y ys =>
      cases c with
      | nil => simp [charListLe] at hbc
      | cons z zs =>
        rw [charListLe_cons_iff] at hab hbc ⊢
        rcases hab with h | ⟨e, hr⟩ <;> rcases hbc with h' | ⟨e', hr'⟩
        · exact Or.inl (by omega)
        · exact Or.inl (by omega)
        · exact Or.inl (by omega)
        · exact Or.inr ⟨by omega, ih ys zs hr hr'⟩

theorem charListLe_antisymm : ∀ a b : List Char,
    charListLe a b = true → charListLe b a = true → a = b := by
  intro a
  induction a with
  | nil =>
    intro b _ hba
    cases b with
    | nil => rfl
    | cons y ys => simp [charListLe] at hba
  | cons x xs ih =>
    intro b hab hba
    cases b with
    | nil => simp [charListLe] at hab
    | cons y ys =>
      rw [charListLe_cons_iff] at hab hba
      rcases hab with h | ⟨e, hr⟩ <;> rcases hba with h' | ⟨e', hr'⟩
      · omega
      · omega
      · omega
      · have hxy : x = y := Char.ext (by
          have hv : x.val.toNat = y.val.toNat := e
          exact UInt32.ext hv)
        rw [hxy, ih ys hr hr']

theorem table_le_refl (p : Nat) (a : CafeTable) : table_le p a a :=
  Or.inr ⟨rfl, Or.inr ⟨rfl, charListLe_refl _⟩⟩

theorem table_le_total (p : Nat) (a b : CafeTable) :
    table_le p a b ∨ table_le p b a := by
  rcases Nat.lt_trichotomy a.capacity b.capacity with h | h | h
  · exact Or.inl (Or.inl (by omega))
  · rcases charListLe_total a.table_id.data b.table_id.data with hc | hc
    · exact Or.inl (Or.inr ⟨by omega, Or.inr ⟨h, hc⟩⟩)
    · exact Or.inr (Or.inr ⟨by omega, Or.inr ⟨h.symm, hc⟩⟩)
  · exact Or.inr (Or.inl (by omega))

theorem table_le_trans (p : Nat) (a b c : CafeTable) :
    table_le p a b → table_le p b c → table_le p a c := by
  intro hab hbc
  rcases hab with h1 | ⟨e1, h1'⟩ <;> rcases hbc with h2 | ⟨e2, h2'⟩
  · exact Or.inl (by omega)
  · exact Or.inl (by omega)
  · exact Or.inl (by omega)
  · refine Or.inr ⟨by omega, ?_⟩
    rcases h1' with hc1 | ⟨ec1, hs1⟩ <;> rcases h2' with hc2 | ⟨ec2, hs2⟩
    · exact Or.inl (by omega)
    · exact Or.inl (by omega)
    · exact Or.inl (by omega)
    · exact Or.inr ⟨ec1.trans ec2, charListLe_trans _ _ _ hs1 hs2⟩

theorem table_le_antisymm_key (p : Nat) (a b : CafeTable)
    (hab : table_le p a b) (hba : table_le p b a) :
    a.capacity = b.capacity ∧ a.table_id = b.table_id := by
  rcases hab with h1 | ⟨e1, h1'⟩ <;> rcases hba with h2 | ⟨e2, h2'⟩
  · omega
  · omega
  · omega
  · rcases h1' with hc1 | ⟨ec1, hs1⟩ <;> rcases h2' with hc2 | ⟨ec2, hs2⟩
    · omega
    · omega
    · omega
    · have hdata : a.table_id.data = b.table_id.data :=
        charListLe_antisymm _ _ hs1 hs2
      exact ⟨ec1, String.ext hdata⟩

theorem pairwise_id_inj {l : List CafeTable}
    (h : l.Pairwise (fun a b => a.table_id ≠ b.table_id)) :
    ∀ a ∈ l, ∀ b ∈ l, a.table_id = b.table_id → a = b := by
  induction l with
  | nil => intro a ha; exact absurd ha (List.not_mem_nil a)
  | cons x xs ih =>
    rw [List.pairwise_cons] at h
    intro a ha b hb heq
    rcases List.mem_cons.mp ha with rfl | ha' <;>
      rcases List.mem_cons.mp hb with rfl | hb'
    · rfl
    · exact absurd heq (h.1 b hb')
    · exact absurd heq.symm (h.1 a ha')
    · exact ih h.2 a ha' b hb' heq

theorem ai_assign_table_min (tables : List CafeTable)
    (resvs : List Reservation) (date time party_size : Nat)
    (hne : available_tables_for_slot tables resvs date time party_size ≠ []) :
    ∃ c ∈ available_tables_for_slot tables resvs date time party_size,
      ai_assign_table tables resvs date time party_size = some c.table_id ∧
      ∀ u ∈ available_tables_for_slot tables resvs date time party_size,
        table_le party_size c u := by
  haveI : IsTotal CafeTable (table_le party_size) :=
    ⟨fun a b => table_le_total party_size a b⟩
  haveI : IsTrans CafeTable (table_le party_size) :=
    ⟨fun a b c => table_le_trans party_size a b c⟩
  have hsorted := List.sorted_insertionSort (table_le party_size)
    (available_tables_for_slot tables resvs date time party_size)
  match hs : (available_tables_for_slot tables resvs date time
      party_size).insertionSort (table_le party_size) with
  | [] =>
    exfalso
    apply hne
    have hperm := List.perm_insertionSort (table_le party_size)
      (available_tables_for_slot tables resvs date time party_size)
    rw [hs] at hperm
    exact hperm.nil_eq.symm
  | c :: rest =>
    refine ⟨c, ?_, ?_, ?_⟩
    · have : c ∈ (available_tables_for_slot tables resvs date time
          party_size).insertionSort (table_le party_size) := by
        rw [hs]; exact List.mem_cons_self c rest
      simpa using this
    · simp only [ai_assign_table]
      rw [hs]
    · intro u hu
      have hu' : u ∈ (available_tables_for_slot tables resvs date time
          party_size).insertionSort (table_le party_size) := by
        simpa using hu
      rw [hs] at hu'
      rcases List.mem_cons.mp hu' with rfl | hu''
      · exact table_le_refl party_size u
      · rw [hs] at hsorted
        exact List.rel_of_sorted_cons hsorted u hu''

/-- C3: for a non-empty candidate set (with pandas' primary-key invariant
that table ids are pairwise distinct), `ai_assign_table` returns exactly
one identifier — that of the unique minimum of the candidate set under
ascending waste, then ascending capacity, then ascending table id
(`table_le`); for an empty candidate set it returns `none`, not an
error. -/
theorem ai_assign_table_spec :
    (∀ (tables : List CafeTable) (resvs : List Reservation)
        (date time party_size : Nat),
      available_tables_for_slot tables resvs date time party_size = [] →
      ai_assign_table tables resvs date time party_size = none) ∧
    (∀ (tables : List CafeTable) (resvs : List Reservation)
        (date time party_size : Nat),
      available_tables_for_slot tables resvs date time party_size ≠ [] →
      (available_tables_for_slot tables resvs date time party_size).Pairwise
        (fun a b => a.table_id ≠ b.table_id) →
      ∃ c ∈ available_tables_for_slot tables resvs date time party_size,
        ai_assign_table tables resvs date time party_size =
          some c.table_id ∧
        (∀ u ∈ available_tables_for_slot tables resvs date time party_size,
          table_le party_size c u) ∧
        (∀ u ∈ available_tables_for_slot tables resvs date time party_size,
          u ≠ c → ¬ table_le party_size u c)) := by
  constructor
  · intro tables resvs date time party_size h
    simp only [ai_assign_table]
    rw [h]
    rfl
  · intro tables resvs date time party_size hne hpw
    obtain ⟨c, hc, heq, hmin⟩ :=
      ai_assign_table_min tables resvs date time party_size hne
    refine ⟨c, hc, heq, hmin, ?_⟩
    intro u hu hune hle
    have hkey := table_le_antisymm_key party_size u c hle (hmin u hu)
    exact hune (pairwise_id_inj hpw u hu c hc hkey.2)

/-- C3 witness (Scenario A): candidate tables T1 (cap 2), T2 (cap 2),
T3 (cap 4) for party size 2 — the unique-minimum characterization of the
theorem forces the heuristic's answer to be `T1`. -/
theorem ai_assign_table_spec_witness :
    ai_assign_table [tbl_T1, tbl_T2, tbl_T3] [] 5 600 2 = some "T1" := by
  obtain ⟨c, hc, heq, hmin, hstrict⟩ :=
    ai_assign_table_spec.2 [tbl_T1, tbl_T2, tbl_T3] [] 5 600 2
      (by decide) (by decide)
  have hav : available_tables_for_slot [tbl_T1, tbl_T2, tbl_T3] [] 5 600 2 =
      [tbl_T1, tbl_T2, tbl_T3] := by decide
  have hT1 : tbl_T1 ∈
      available_tables_for_slot [tbl_T1, tbl_T2, tbl_T3] [] 5 600 2 := by
    rw [hav]
    exact List.mem_cons_self _ _
  rw [hav] at hc
  rcases List.mem_cons.mp hc with rfl | hc'
  · exact heq
  · rcases List.mem_cons.mp hc' with rfl | hc''
    · exact absurd (by decide : table_le 2 tbl_T1 tbl_T2)
        (hstrict tbl_T1 hT1 (by decide))
    · rcases List.mem_cons.mp hc'' with rfl | hc3
      · exact absurd (by decide : table_le 2 tbl_T1 tbl_T3)
          (hstrict tbl_T1 hT1 (by decide))
      · exact absurd hc3 (List.not_mem_nil _)

/-- C4 counterexample: party of 8 with the largest table seating 6, name
and contact present — the availability filter returns the empty set, yet
the submit handler stores nothing at all (`none`): no pending reservation
is created. -/
theorem booking_empty_creates_nothing :
    available_tables_for_slot [tbl_T5] [] 5 600 8 = [] ∧
    booking_submit { tables := [tbl_T5], reservations := [] }
      "Bob" "bob@example.com" 5 600 8 "R9" 7 = none ∧
    "Bob" ≠ "" ∧ "bob@example.com" ≠ "" := by
  refine ⟨rfl, rfl, by decide, by decide⟩

/-- C4 (amended): when name and contact are present and the availability
filter returns the empty set, the booking submit handler creates no
reservation at all — it only warns and suggests alternative times.  (The
`pending` status the claim expects appears only in a dead fallback branch
reached when the filter is non-empty but the heuristic returns nothing.) -/
theorem booking_empty_rejects (db : DB) (name contact : String)
    (date time party_size : Nat) (rid : String) (now : Nat)
    (hname : name ≠ "") (hcontact : contact ≠ "")
    (hempty : available_tables_for_slot db.tables db.reservations date time
      party_size = []) :
    booking_submit db name contact date time party_size rid now = none := by
  simp [booking_submit, hname, hcontact, hempty]

/-- C4 witness: the amended behaviour at the Scenario C input (party 8,
largest capacity 6). -/
theorem booking_empty_rejects_witness :
    booking_submit { tables := [tbl_T5], reservations := [] }
      "Bob" "bob@example.com" 5 600 8 "R9" 7 = none :=
  booking_empty_rejects { tables := [tbl_T5], reservations := [] }
    "Bob" "bob@example.com" 5 600 8 "R9" 7 (by decide) (by decide) rfl

/-- C5: the admin manual-assign handler performs no capacity and no
conflict validation — assigning reservation `R2` (party of 5) to table
`T1` (capacity 2), already held at the very same slot by the non-cancelled
confirmed reservation `R1`, succeeds and force-confirms instead of failing
with a ConflictError.  This evaluates the code at the claim's failing
input; the spec itself flags this as a design gap in the source. -/
theorem manual_assign_bypasses_validation :
    manual_assign { tables := [tbl_T1], reservations := [resv_R1, resv_big] }
        "R2" "T1" =
      .ok { tables := [tbl_T1]
            reservations :=
              [resv_R1,
               { resv_big with
                 table_id := some "T1"
                 status := "confirmed" }] } ∧
    tbl_T1.capacity < resv_big.party_size ∧
    resv_R1.status ≠ "cancelled" ∧
    resv_R1.table_id = some tbl_T1.table_id ∧
    time_conflicts (parse_datetime resv_big.rdate resv_big.rtime)
      (parse_datetime resv_R1.rdate resv_R1.rtime) = true := by
  refine ⟨rfl, by decide, by decide, rfl, by decide⟩

theorem ai_assign_table_some_mem {tables : List CafeTable}
    {resvs : List Reservation} {date time party_size : Nat} {s : String}
    (h : ai_assign_table tables resvs date time party_size = some s) :
    ∃ tb ∈ tables, tb.table_id = s := by
  simp only [ai_assign_table] at h
  cases hs : (available_tables_for_slot tables resvs date time
      party_size).insertionSort (table_le party_size) with
  | nil =>
    rw [hs] at h
    exact absurd h (by simp)
  | cons c rest =>
    rw [hs] at h
    have hcs : c.table_id = s := Option.some_injective _ h
    have hc : c ∈ available_tables_for_slot tables resvs date time
        party_size := by
      have hmem : c ∈ (available_tables_for_slot tables resvs date time
          party_size).insertionSort (table_le party_size) := by
        rw [hs]
        exact List.mem_cons_self _ _
      simpa using hmem
    rw [mem_available_tables] at hc
    exact ⟨c, hc.1, hcs⟩

theorem eligible_not_confirmedAssigned {r : Reservation}
    (h : batch_eligible r = true) : confirmedAssigned r = false := by
  simp only [batch_eligible, Bool.and_eq_true] at h
  simp only [confirmedAssigned]
  obtain ⟨-, h2⟩ := h
  rw [Bool.or_eq_true] at h2
  rcases h2 with h2 | h2
  · rw [Bool.not_eq_true'] at h2
    simp [h2]
  · have : r.status ≠ "confirmed" := by simpa using h2
    simp [this]

theorem map_assign_noop (rid tid : String) :
    ∀ l : List Reservation, (∀ x ∈ l, x.reservation_id ≠ rid) →
      l.map (fun x => if x.reservation_id = rid then
          { x with table_id := some tid, status := "confirmed" }
        else x) = l := by
  intro l h
  induction l with
  | nil => rfl
  | cons x xs ih =>
    simp only [List.map_cons]
    rw [if_neg (h x (List.mem_cons_self x xs)),
      ih (fun y hy => h y (List.mem_cons_of_mem x hy))]

theorem countP_map_assign (rid tid : String) (htid : tid ≠ "") :
    ∀ l : List Reservation,
      l.Pairwise (fun a b => a.reservation_id ≠ b.reservation_id) →
      ∀ r ∈ l, r.reservation_id = rid → confirmedAssigned r = false →
      (l.map (fun x => if x.reservation_id = rid then
          { x with table_id := some tid, status := "confirmed" }
        else x)).countP confirmedAssigned =
        l.countP confirmedAssigned + 1 := by
  intro l
  induction l with
  | nil =>
    intro _ r hr
    exact absurd hr (List.not_mem_nil r)
  | cons x xs ih =>
    intro hpw r hr hrid hnot
    rw [List.pairwise_cons] at hpw
    rcases List.mem_cons.mp hr with rfl | hr'
    · have hxs : xs.map (fun x => if x.reservation_id = rid then
          { x with table_id := some tid, status := "confirmed" }
        else x) = xs :=
        map_assign_noop rid tid xs
          (fun y hy hyid => hpw.1 y hy (by rw [hrid, hyid]))
      have hCA : confirmedAssigned
          { r with table_id := some tid, status := "confirmed" } = true := by
        simp [confirmedAssigned, truthy, htid]
      simp only [List.map_cons, if_pos hrid, hxs, List.countP_cons, hCA, hnot]
      simp
    · have hxid : x.reservation_id ≠ rid := fun hx =>
        (hpw.1 r hr') (by rw [hx, hrid])
      simp only [List.map_cons, if_neg hxid, List.countP_cons,
        ih hpw.2 r hr' hrid hnot]
      omega

theorem pairwise_map_assign (rid tid : String) {l : List Reservation}
    (h : l.Pairwise (fun a b => a.reservation_id ≠ b.reservation_id)) :
    (l.map (fun x => if x.reservation_id = rid then
        { x with table_id := some tid, status := "confirmed" }
      else x)).Pairwise
      (fun a b => a.reservation_id ≠ b.reservation_id) := by
  refine h.map _ (fun a b hab => ?_)
  by_cases ha : a.reservation_id = rid
  · by_cases hb : b.reservation_id = rid
    · rw [if_pos ha, if_pos hb]
      exact hab
    · rw [if_pos ha, if_neg hb]
      exact hab
  · by_cases hb : b.reservation_id = rid
    · rw [if_neg ha, if_pos hb]
      exact hab
    · rw [if_neg ha, if_neg hb]
      exact hab

theorem batch_foldl_invariant :
    ∀ (pending : List Reservation) (db : DB) (n : Nat),
      (∀ t ∈ db.tables, t.table_id ≠ "") →
      db.reservations.Pairwise
        (fun a b => a.reservation_id ≠ b.reservation_id) →
      pending.Pairwise (fun a b => a.reservation_id ≠ b.reservation_id) →
      (∀ r ∈ pending, r ∈ db.reservations) →
      (pending.foldl batch_step (db, n)).1.tables = db.tables ∧
      (pending.foldl batch_step (db, n)).2 +
          db.reservations.countP confirmedAssigned =
        n + (pending.foldl batch_step (db, n)).1.reservations.countP
          confirmedAssigned := by
  intro pending
  induction pending with
  | nil =>
    intro db n _ _ _ _
    exact ⟨rfl, rfl⟩
  | cons r rest ih =>
    intro db n htid hids hpw hmem
    rw [List.pairwise_cons] at hpw
    simp only [List.foldl_cons]
    by_cases he : batch_eligible r = true
    · cases hai : ai_assign_table db.tables db.reservations
          r.rdate r.rtime r.party_size with
      | none =>
        have hstep : batch_step (db, n) r = (db, n) := by
          simp [batch_step, he, hai]
        rw [hstep]
        exact ih db n htid hids hpw.2
          (fun y hy => hmem y (List.mem_cons_of_mem r hy))
      | some asg =>
        have hstep : batch_step (db, n) r =
            (assign_table_to_reservation db r.reservation_id asg, n + 1) := by
          simp [batch_step, he, hai]
        rw [hstep]
        obtain ⟨tb, htb, htbid⟩ := ai_assign_table_some_mem hai
        have hasg : asg ≠ "" := htbid ▸ htid tb htb
        have htab : (assign_table_to_reservation db r.reservation_id
            asg).tables = db.tables := rfl
        have hids' : (assign_table_to_reservation db r.reservation_id
            asg).reservations.Pairwise
            (fun a b => a.reservation_id ≠ b.reservation_id) :=
          pairwise_map_assign r.reservation_id asg hids
        have hmem' : ∀ y ∈ rest, y ∈ (assign_table_to_reservation db
            r.reservation_id asg).reservations := by
          intro y hy
          have hyne : y.reservation_id ≠ r.reservation_id :=
            (hpw.1 y hy).symm
          simp only [assign_table_to_reservation]
          exact List.mem_map.mpr
            ⟨y, hmem y (List.mem_cons_of_mem r hy), by rw [if_neg hyne]⟩
        have hcount : (assign_table_to_reservation db r.reservation_id
            asg).reservations.countP confirmedAssigned =
            db.reservations.countP confirmedAssigned + 1 :=
          countP_map_assign r.reservation_id asg hasg db.reservations hids
            r (hmem r (List.mem_cons_self r rest)) rfl
            (eligible_not_confirmedAssigned he)
        obtain ⟨ht', hc'⟩ := ih (assign_table_to_reservation db
            r.reservation_id asg) (n + 1)
          (fun t ht => htid t (htab ▸ ht)) hids' hpw.2 hmem'
        refine ⟨by rw [ht', htab], ?_⟩
        rw [hcount] at hc'
        omega
    · have hstep : batch_step (db, n) r = (db, n) := by
        simp [batch_step, he]
      rw [hstep]
      exact ih db n htid hids hpw.2
        (fun y hy => hmem y (List.mem_cons_of_mem r hy))

/-- C6: `batch_assign` processes the date's snapshot rows in stored
(rowid) order — which, with the store invariant that rows are appended
with monotone `created_at`, is ascending creation-timestamp order
(first-come-first-served, the eligible sequence stays sorted) — skips any
reservation for which the heuristic finds no table, leaves the table set
unchanged, and its returned count equals the number of reservations that
are newly confirmed-and-seated (the final count of confirmed-assigned rows
minus the initial one). -/
theorem batch_assign_fcfs (db : DB) (date : Nat)
    (htid : ∀ t ∈ db.tables, t.table_id ≠ "")
    (hids : db.reservations.Pairwise
      (fun a b => a.reservation_id ≠ b.reservation_id))
    (hsorted : db.reservations.Sorted
      (fun a b => a.created_at ≤ b.created_at)) :
    ((fetch_reservations_on db date).filter batch_eligible).Sorted
      (fun a b => a.created_at ≤ b.created_at) ∧
    (batch_assign db date).1.tables = db.tables ∧
    (batch_assign db date).2 +
        db.reservations.countP confirmedAssigned =
      (batch_assign db date).1.reservations.countP confirmedAssigned := by
  have hsub : List.Sublist (fetch_reservations_on db date)
      db.reservations := by
    simp only [fetch_reservations_on]
    exact List.filter_sublist _
  have hpend : (fetch_reservations_on db date).Pairwise
      (fun a b => a.reservation_id ≠ b.reservation_id) :=
    List.Pairwise.sublist hsub hids
  have hmem : ∀ r ∈ fetch_reservations_on db date, r ∈ db.reservations :=
    fun r hr => hsub.subset hr
  obtain ⟨h1, h2⟩ := batch_foldl_invariant (fetch_reservations_on db date)
    db 0 htid hids hpend hmem
  refine ⟨?_, h1, ?_⟩
  · exact List.Pairwise.sublist
      (List.Sublist.trans (List.filter_sublist _) hsub) hsorted
  · simpa [batch_assign] using h2

/-- C6 witness (Scenario D): three pending same-slot reservations with
ascending creation timestamps and a single suitable table — the count law
follows from the theorem, and exactly the earliest-created reservation
`P1` ends confirmed on `T3` while `P2`, `P3` stay pending. -/
theorem batch_assign_fcfs_witness :
    (batch_assign scenarioD_db 5).2 +
        scenarioD_db.reservations.countP confirmedAssigned =
      (batch_assign scenarioD_db 5).1.reservations.countP
        confirmedAssigned ∧
    (batch_assign scenarioD_db 5).2 = 1 ∧
    (batch_assign scenarioD_db 5).1.reservations.map
        (fun r => (r.reservation_id, r.status, r.table_id)) =
      [("P1", "confirmed", some "T3"),
       ("P2", "pending", none),
       ("P3", "pending", none)] := by
  refine ⟨(batch_assign_fcfs scenarioD_db 5
      (by decide) (by decide) (by decide)).2.2, by decide, by decide⟩
